import Mathlib

/-!
Verification development for the `is-it-up` service (fastily/is-it-up).

The service answers "is this host reachable?".  Its core pieces, embedded
here from the Python sources:

* `TokenBucketRateLimiter` with its `is_allowed` method
  (src/is_it_up/utils.py, lines 19-49).  Python integers become `Int`;
  the wall clock reading `int(time())` becomes an explicit `now : Int`
  argument, and the mutation of `self` becomes explicit state passing:
  `is_allowed` returns the boolean verdict together with the updated bucket.
* the `/check` endpoint `check_website` (src/is_it_up/__main__.py,
  lines 73-100) together with `_result_with_status` (lines 46-57).
  The Redis cache becomes an association list from keys to
  (status, expiry-time) pairs; `cache.get`/`cache.ttl`/`cache.set` become
  `cacheGet`/`cacheTtl`/`cacheSet` over that list and the current time.
  The outbound HTTP probe is a black-box capability: its outcome enters
  `check_website` as an explicit `ProbeOutcome` argument
  (HTTP status observed, network-level failure, or any other fault),
  matching the `try`/`except RequestError`/`except` structure of the code.
* Python's `urllib.parse.urlparse` (as called on line 83), modelled after
  CPython 3.11's `urlsplit`/`urlparse` for the components the endpoint
  reads: scheme, netloc, path (plus params, query, fragment).  The
  IPv6-bracket `ValueError` and the NFKC netloc check of CPython, which
  concern inputs outside every claim here, are not modelled.
* the FastAPI query validation `Query(max_length=100, pattern=...)`
  (line 74): pydantic v2 checks an unanchored pattern (a match anywhere in
  the string suffices) and rejects violations with a 422 response before
  the endpoint body runs; `handle_check` models this wrapper.

Time is modelled in whole seconds throughout, matching `int(time())` in the
limiter and `replace(microsecond=0)` in `_result_with_status`.
-/

namespace IsItUp

/-! ## Token bucket rate limiter (utils.py) -/

/-- State of `TokenBucketRateLimiter`: `_capacity`, `_fill_rate`, `_tokens`,
`_last_time` (utils.py lines 29-32). -/
structure TokenBucketRateLimiter where
  capacity : Int
  fill_rate : Int
  tokens : Int
  last_time : Int
deriving DecidableEq, Repr

/-- The constructor (utils.py lines 22-32): the bucket starts full, with
`_last_time` set to the current clock reading. -/
def TokenBucketRateLimiter.init (capacity fill_rate now : Int) : TokenBucketRateLimiter :=
  ⟨capacity, fill_rate, capacity, now⟩

/-- The method `is_allowed` (utils.py lines 34-49).  Refill:
`tokens = min(capacity, tokens + (now - last_time) * fill_rate)`, then debit
`tokens_requested` when enough tokens are available.  The elapsed time
`now - last_time` is used as-is, with no lower bound.  Returns the verdict
and the updated bucket. -/
def TokenBucketRateLimiter.is_allowed (b : TokenBucketRateLimiter) (now : Int)
    (tokens_requested : Int) : Bool × TokenBucketRateLimiter :=
  let t := min b.capacity (b.tokens + (now - b.last_time) * b.fill_rate)
  if tokens_requested ≤ t then (true, ⟨b.capacity, b.fill_rate, t - tokens_requested, now⟩)
  else (false, ⟨b.capacity, b.fill_rate, t, now⟩)

/-- Runs a sequence of `is_allowed` calls; each list element is a pair of
the clock reading observed by that call and the cost requested.  Returns
the list of verdicts and the final bucket state. -/
def runCalls (b : TokenBucketRateLimiter) : List (Int × Int) → List Bool × TokenBucketRateLimiter
  | [] => ([], b)
  | (now, cost) :: rest =>
      let s := b.is_allowed now cost
      let r := runCalls s.2 rest
      (s.1 :: r.1, r.2)

/-- Checks that a call sequence carries non-decreasing clock readings
starting from `t`, with non-negative costs. -/
def monoFromB (t : Int) : List (Int × Int) → Bool
  | [] => true
  | (now, cost) :: rest => (t ≤ now : Bool) && (0 ≤ cost : Bool) && monoFromB now rest

/-! ## Result cache (the Redis calls of __main__.py) -/

/-- The cache: each entry maps a Redis key to the stored status and the
absolute expiry time (write time plus TTL).  The head of the list is the
most recent write, as in `cacheSet`. -/
abbrev Cache := List (String × Int × Int)

/-- Models `cache.get(key)` at time `now`: Redis returns the value only
while the key has not expired. -/
def cacheGet (c : Cache) (k : String) (now : Int) : Option Int :=
  match c.lookup k with
  | some (v, exp) => if now < exp then some v else none
  | none => none

/-- Models `cache.ttl(key)` at time `now`: remaining seconds while the key
lives, `-2` for a missing or expired key. -/
def cacheTtl (c : Cache) (k : String) (now : Int) : Int :=
  match c.lookup k with
  | some (_, exp) => if now < exp then exp - now else -2
  | none => -2

/-- Models `cache.set(key, value, ttl)` at time `now`: last-writer-wins
overwrite, expiring at `now + ttl`. -/
def cacheSet (c : Cache) (k : String) (v : Int) (ttl now : Int) : Cache :=
  (k, (v, now + ttl)) :: c

/-! ## Constants of __main__.py -/

/-- `_CACHE_TTL = 300` (line 34). -/
def CACHE_TTL : Int := 300

/-- `_UNREACHABLE_STATUS = -1` (line 35). -/
def UNREACHABLE_STATUS : Int := -1

/-- The `User-Agent` header value sent on line 93 of __main__.py. -/
def USER_AGENT : String :=
  "Mozilla/5.0 (Windows NT 10.0; Win64; x64) AppleWebKit/537.36 (KHTML, like Gecko) Chrome/105.0.0.0 Safari/537.36"

/-- The headers passed to `client.stream` (line 93).  The header dictionary
is a literal inside the call: it does not depend on the request, which the
unused request-index argument makes explicit. -/
def probe_headers (_requestIndex : Nat) : List (String × String) :=
  [("User-Agent", USER_AGENT)]

/-- Models `_REDIS_PREFIX = f"is-it-up-{uuid4()}"` (line 36), as a function
of the UUID string drawn once at process startup.  A `uuid4()` rendered by
an f-string is always 36 characters long. -/
def redis_pfx (uuid : String) : String := "is-it-up-" ++ uuid

/-- Models `redis_key = f"{_REDIS_PREFIX}-{u}"` (line 88). -/
def redis_key_of (pfx origin : String) : String := pfx ++ "-" ++ origin

/-! ## urllib.parse.urlparse, as used on line 83 of __main__.py

Modelled after CPython 3.11 (setup.py requires Python >= 3.11):
`urlsplit` strips tab/CR/LF, detects a scheme before the first `:`,
takes a netloc after a leading `//` up to the next `/`, `?` or `#`,
then splits the fragment at the first `#` and the query at the first `?`;
`urlparse` additionally splits params at the first `;` of the last path
segment. -/

/-- Splits a character list at the first occurrence of `c`: returns the
part before it and, when `c` occurs, the part after it. -/
def splitFirst (c : Char) : List Char → List Char × Option (List Char)
  | [] => ([], none)
  | x :: xs =>
      if x = c then ([], some xs)
      else (x :: (splitFirst c xs).1, (splitFirst c xs).2)

/-- CPython's `scheme_chars`: ASCII letters, digits, `+`, `-`, `.`. -/
def scheme_chars (c : Char) : Bool :=
  c.isAlphanum || c = '+' || c = '-' || c = '.'

/-- Scheme detection of `urlsplit`: when a `:` occurs at a positive index,
the first character is an ASCII letter and every character before the `:`
is a scheme character, the scheme is that part lowercased and the rest is
what follows the `:`; otherwise there is no scheme and the whole input
remains. -/
def parseScheme (l : List Char) : List Char × List Char :=
  match splitFirst ':' l with
  | (before, some after) =>
      match before with
      | [] => ([], l)
      | b :: bs =>
          if b.isAlpha && (b :: bs).all scheme_chars then
            ((b :: bs).map Char.toLower, after)
          else ([], l)
  | (_, none) => ([], l)

/-- Characters that end the netloc in `_splitnetloc`. -/
def netlocEnd (c : Char) : Bool := c = '/' || c = '?' || c = '#'

/-- Netloc detection of `urlsplit`: when the input starts with `//`, the
netloc is everything after it up to the next `/`, `?` or `#` (the delimiter
stays with the rest); otherwise the netloc is empty. -/
def parseNetloc (l : List Char) : List Char × List Char :=
  match l with
  | '/' :: '/' :: rest =>
      (rest.takeWhile (fun c => !netlocEnd c), rest.dropWhile (fun c => !netlocEnd c))
  | _ => ([], l)

/-- The last `/`-separated segment of a path (the whole path when it has
no `/`): the region in which `_splitparams` searches for a `;`. -/
def lastSegment (l : List Char) : List Char :=
  if l.contains '/' then (l.reverse.takeWhile (fun c => c ≠ '/')).reverse else l

/-- `_splitparams` of `urlparse`: splits the path at the first `;` of its
last `/`-separated segment; without a `;` there, the path is unchanged and
params are empty. -/
def splitParams (l : List Char) : List Char × List Char :=
  match splitFirst ';' (lastSegment l) with
  | (_, none) => (l, [])
  | (a, some b) => (l.take (l.length - (lastSegment l).length) ++ a, b)

/-- The components of `urlparse` that the endpoint can read. -/
structure ParseResult where
  scheme : String
  netloc : String
  path : String
  params : String
  query : String
  fragment : String
deriving DecidableEq, Repr

/-- `urlparse(s)` for CPython 3.11, composed from the pieces above. -/
def urlparse (s : String) : ParseResult :=
  let l := s.data.filter (fun c => !(c = '\t' || c = '\r' || c = '\n'))
  let ps := parseScheme l
  let nl := parseNetloc ps.2
  let fr := splitFirst '#' nl.2
  let qr := splitFirst '?' fr.1
  let pp := splitParams qr.1
  { scheme := String.mk ps.1
    netloc := String.mk nl.1
    path := String.mk pp.1
    params := String.mk pp.2
    query := String.mk (qr.2.getD [])
    fragment := String.mk (fr.2.getD []) }

/-! ## The /check endpoint (__main__.py lines 73-100) -/

/-- Outcome of the single outbound GET issued by `client.stream` on
line 93, as observed by the `try` block: a response whose status code was
read, a network-level failure (`httpx.RequestError`), or any other
exception. -/
inductive ProbeOutcome where
  | reached (code : Int)
  | netError
  | otherFault
deriving DecidableEq, Repr

/-- The HTTP response of the endpoint: a 200 JSON body (field list of the
returned dict, timestamps as whole epoch seconds), or an
`HTTPException`-style error with its status code (400/422/500; FastAPI
turns query-validation failures into 422). -/
inductive Response where
  | ok (body : List (String × Int))
  | error (code : Nat)
deriving DecidableEq, Repr

/-- `_result_with_status(status, offset)` (lines 46-57): the returned dict
has exactly the keys `status` and `last_checked`; `last_checked` is the
current time minus `_CACHE_TTL - offset` when `offset` is non-zero, else
the current time.  The `datetime` value is represented by its whole-second
epoch timestamp (the code truncates microseconds; `isoformat` is an
injective rendering of it). -/
def result_with_status (now status offset : Int) : List (String × Int) :=
  [("status", status), ("last_checked", if offset ≠ 0 then now - (CACHE_TTL - offset) else now)]

/-- The malformed-input guard of line 84:
`not (o.netloc or o.path) or "." not in website`. -/
def malformed_input (website : String) (o : ParseResult) : Bool :=
  (o.netloc = "" && o.path = "") || !website.data.contains '.'

/-- Line 87: `u = f"{o.scheme or 'https'}://{o.netloc or o.path}"`. -/
def origin_of (o : ParseResult) : String :=
  (if o.scheme = "" then "https" else o.scheme) ++ "://"
    ++ (if o.netloc = "" then o.path else o.netloc)

/-- The probe-and-store tail of `check_website` (lines 92-100): on a read
status code or a `RequestError` the result is cached for `_CACHE_TTL`
seconds and returned as a 200 body; any other exception becomes a 500 with
no cache write.  The third component records that a probe was issued. -/
def probe_store (redis_key : String) (now : Int) (cache : Cache) (outcome : ProbeOutcome) :
    Response × Cache × Bool :=
  match outcome with
  | .reached code =>
      (.ok (result_with_status now code 0), cacheSet cache redis_key code CACHE_TTL now, true)
  | .netError =>
      (.ok (result_with_status now UNREACHABLE_STATUS 0),
        cacheSet cache redis_key UNREACHABLE_STATUS CACHE_TTL now, true)
  | .otherFault => (.error 500, cache, true)

/-- `check_website` (lines 73-100): parse, reject malformed input with a
400, build the origin and its Redis key, serve from the cache when `get`
returns a value and `ttl` is positive, otherwise probe and store.  Returns
the response, the cache afterwards, and whether a probe was issued. -/
def check_website (pfx website : String) (now : Int) (cache : Cache) (outcome : ProbeOutcome) :
    Response × Cache × Bool :=
  let o := urlparse website
  if malformed_input website o then (.error 400, cache, false)
  else
    let redis_key := redis_key_of pfx (origin_of o)
    match cacheGet cache redis_key now with
    | some status =>
        if 0 < cacheTtl cache redis_key now then
          (.ok (result_with_status now status (cacheTtl cache redis_key now)), cache, false)
        else probe_store redis_key now cache outcome
    | none => probe_store redis_key now cache outcome

/-- The query validation of line 74, `Query(max_length=100, pattern=...)`:
pydantic v2 accepts the string when its length is at most 100 and the
unanchored pattern `[A-Za-z0-9\-\.]+` matches somewhere in it, i.e. when
some character is alphanumeric, `-` or `.`. -/
def validate_website (s : String) : Bool :=
  s.length ≤ 100 && s.data.any (fun c => c.isAlphanum || c = '-' || c = '.')

/-- The endpoint as exposed by FastAPI: query validation first (422 on
failure, endpoint body never runs), then `check_website`. -/
def handle_check (pfx website : String) (now : Int) (cache : Cache) (outcome : ProbeOutcome) :
    Response × Cache × Bool :=
  if validate_website website then check_website pfx website now cache outcome
  else (.error 422, cache, false)

/-- Helper naming the status that `check_website` stores and returns for a
probe outcome that produced a result (`reached` stores the code read,
`netError` stores the unreachable sentinel; the `otherFault` value is
irrelevant and fixed at 0). -/
def status_of : ProbeOutcome → Int
  | .reached code => code
  | .netError => UNREACHABLE_STATUS
  | .otherFault => 0

/-! ## Spec-side definitions, for comparison with the code

These two definitions follow the specification's words, not the source;
each is compared against the embedded code by a claim below. -/

/-- The input constraint as the specification words it: the claim calls an
input violating when it is longer than 128 characters or contains any
character outside `[A-Za-z0-9.-]`. -/
def spec_input_violation (s : String) : Bool :=
  128 < s.length || !s.data.all (fun c => c.isAlphanum || c = '-' || c = '.')

/-- The rotation property as the specification words it: some two probes
carry different `User-Agent` headers, so the header is not one constant
string on every probe. -/
def spec_rotation_claim : Prop :=
  ∃ n m : Nat, probe_headers n ≠ probe_headers m

/-! ## Lemmas about the token bucket -/

/-- Running a concatenation of call sequences runs them in order, threading
the bucket state. -/
theorem runCalls_append (b : TokenBucketRateLimiter) (l1 l2 : List (Int × Int)) :
    runCalls b (l1 ++ l2) =
      ((runCalls b l1).1 ++ (runCalls (runCalls b l1).2 l2).1,
        (runCalls (runCalls b l1).2 l2).2) := by
  induction l1 generalizing b with
  | nil => simp [runCalls]
  | cons hd tl ih =>
      obtain ⟨now, cost⟩ := hd
      simp [runCalls, ih]

/-- A bucket holding `n` tokens whose clock does not advance admits `n`
consecutive unit-cost calls and ends empty. -/
theorem runCalls_drain (n : Nat) (cap fr now : Int) (h : (n : Int) ≤ cap) :
    runCalls ⟨cap, fr, (n : Int), now⟩ (List.replicate n (now, 1)) =
      (List.replicate n true, ⟨cap, fr, 0, now⟩) := by
  induction n with
  | zero => simp [runCalls]
  | succ k ih =>
      have hk : (k : Int) ≤ cap := by push_cast at h ⊢; omega
      have hmin : min cap ((k : Int) + 1 + (now - now) * fr) = (k : Int) + 1 := by
        rw [sub_self, zero_mul, add_zero]
        exact min_eq_right (by push_cast at h; omega)
      simp only [List.replicate_succ, runCalls, TokenBucketRateLimiter.is_allowed]
      push_cast
      rw [hmin]
      rw [if_pos (by omega)]
      simp only [add_sub_cancel_right]
      rw [ih hk]

/-- An empty bucket whose clock does not advance denies every sequence of
unit-cost calls. -/
theorem runCalls_deny (n : Nat) (cap fr now : Int) (h : 0 ≤ cap) :
    runCalls ⟨cap, fr, 0, now⟩ (List.replicate n (now, 1)) =
      (List.replicate n false, ⟨cap, fr, 0, now⟩) := by
  induction n with
  | zero => simp [runCalls]
  | succ k ih =>
      have hmin : min cap ((0 : Int) + (now - now) * fr) = 0 := by
        rw [sub_self, zero_mul, add_zero]
        exact min_eq_right h
      simp only [List.replicate_succ, runCalls, TokenBucketRateLimiter.is_allowed]
      rw [hmin, if_neg (by omega), ih]

/-- One `is_allowed` step preserves `0 ≤ tokens ≤ capacity` when the
capacity, fill rate and cost are non-negative and the clock did not go
backward; the step also stamps `last_time` and keeps the configuration. -/
theorem is_allowed_invariant (b : TokenBucketRateLimiter) (now cost : Int)
    (hcap : 0 ≤ b.capacity) (hfill : 0 ≤ b.fill_rate)
    (h0 : 0 ≤ b.tokens) (ht : b.last_time ≤ now) (hc : 0 ≤ cost) :
    (0 ≤ (b.is_allowed now cost).2.tokens
      ∧ (b.is_allowed now cost).2.tokens ≤ b.capacity)
    ∧ (b.is_allowed now cost).2.capacity = b.capacity
    ∧ (b.is_allowed now cost).2.fill_rate = b.fill_rate
    ∧ (b.is_allowed now cost).2.last_time = now := by
  have hrefill : 0 ≤ (now - b.last_time) * b.fill_rate :=
    mul_nonneg (by omega) hfill
  have hmin1 : min b.capacity (b.tokens + (now - b.last_time) * b.fill_rate) ≤ b.capacity :=
    min_le_left _ _
  have hmin0 : 0 ≤ min b.capacity (b.tokens + (now - b.last_time) * b.fill_rate) :=
    le_min hcap (by omega)
  simp only [TokenBucketRateLimiter.is_allowed]
  split <;> rename_i hcmp <;> dsimp only <;> refine ⟨⟨by omega, by omega⟩, rfl, rfl, rfl⟩

/-- Unfolding lemma: running a call sequence starts with its first call. -/
theorem runCalls_cons (b : TokenBucketRateLimiter) (t c : Int) (l : List (Int × Int)) :
    runCalls b ((t, c) :: l) =
      ((b.is_allowed t c).1 :: (runCalls (b.is_allowed t c).2 l).1,
        (runCalls (b.is_allowed t c).2 l).2) := by
  simp [runCalls]

/-! ## Claim C6: token bucket admission counts -/

/-- C6, counterexample.  The claim says: after `C` successes and one
failure at full drain, waiting `1/fill_rate` seconds (here 0.5 s, as
`fill_rate = 2`) buys exactly one further success.  The limiter reads the
clock through `int(time())`, in whole seconds, so a 0.5 s wait leaves the
reading at `0` or moves it to `1`.  With capacity 2 and fill rate 2: if the
reading is unchanged the fourth call is also denied (zero further
successes), and if the reading moved to `1` the refill adds two tokens at
once, so two further calls succeed — never exactly one. -/
theorem c6_refill_not_single :
    (runCalls ⟨2, 2, 2, 0⟩ [(0, 1), (0, 1), (0, 1), (0, 1)]).1
      = [true, true, false, false]
    ∧ (runCalls ⟨2, 2, 2, 0⟩ [(0, 1), (0, 1), (0, 1), (1, 1), (1, 1)]).1
      = [true, true, false, true, true] := by decide

/-- C6, amended: starting at full capacity `C`, exactly `C` unit-cost calls
with an unchanged clock reading succeed and the next is denied; after the
clock reading advances by one second (the smallest representable wait),
exactly `fill_rate` further calls succeed — the whole second refills
`fill_rate` tokens at once — and the next is denied again
(for `1 ≤ fill_rate ≤ C`). -/
theorem c6_bucket_refill (C F : Nat) (now : Int) (hF : 1 ≤ F) (hFC : F ≤ C) :
    runCalls (TokenBucketRateLimiter.init (C : Int) (F : Int) now)
      (List.replicate C (now, 1) ++ [(now, 1)]
        ++ List.replicate F (now + 1, 1) ++ [(now + 1, 1)]) =
      (List.replicate C true ++ [false] ++ List.replicate F true ++ [false],
        ⟨(C : Int), (F : Int), 0, now + 1⟩) := by
  have hCF : (F : Int) ≤ (C : Int) := by exact_mod_cast hFC
  have hF1 : (1 : Int) ≤ (F : Int) := by exact_mod_cast hF
  have hC0 : (0 : Int) ≤ (C : Int) := Int.natCast_nonneg C
  have h1 := runCalls_drain C (C : Int) (F : Int) now le_rfl
  have h2 : (⟨(C : Int), (F : Int), 0, now⟩ : TokenBucketRateLimiter).is_allowed now 1
      = (false, ⟨(C : Int), (F : Int), 0, now⟩) := by
    simp only [TokenBucketRateLimiter.is_allowed]
    rw [sub_self, zero_mul, add_zero, min_eq_right hC0, if_neg (by omega)]
  have h3 : (⟨(C : Int), (F : Int), 0, now⟩ : TokenBucketRateLimiter).is_allowed (now + 1) 1
      = (true, ⟨(C : Int), (F : Int), (F : Int) - 1, now + 1⟩) := by
    simp only [TokenBucketRateLimiter.is_allowed]
    have he : now + 1 - now = 1 := by ring
    rw [he, one_mul, zero_add, min_eq_right hCF, if_pos hF1]
  have hcast : ((F - 1 : Nat) : Int) = (F : Int) - 1 := by
    push_cast [Nat.cast_sub hF]
    ring
  have h4 := runCalls_drain (F - 1) (C : Int) (F : Int) (now + 1) (by rw [hcast]; omega)
  rw [hcast] at h4
  have h5 : (⟨(C : Int), (F : Int), 0, now + 1⟩ : TokenBucketRateLimiter).is_allowed (now + 1) 1
      = (false, ⟨(C : Int), (F : Int), 0, now + 1⟩) := by
    simp only [TokenBucketRateLimiter.is_allowed]
    rw [sub_self, zero_mul, add_zero, min_eq_right hC0, if_neg (by omega)]
  have hFs : F = (F - 1) + 1 := (Nat.succ_pred_eq_of_pos hF).symm
  have hrep : List.replicate F ((now + 1 : Int), (1 : Int))
      = ((now + 1 : Int), (1 : Int)) :: List.replicate (F - 1) ((now + 1 : Int), (1 : Int)) := by
    conv_lhs => rw [hFs]
    rw [List.replicate_succ]
  have hrepT : List.replicate F true = true :: List.replicate (F - 1) true := by
    conv_lhs => rw [hFs]
    rw [List.replicate_succ]
  have e2 : runCalls ⟨(C : Int), (F : Int), 0, now⟩ [(now, 1)]
      = ([false], ⟨(C : Int), (F : Int), 0, now⟩) := by
    rw [runCalls_cons, h2]
    simp [runCalls]
  have e3 : runCalls ⟨(C : Int), (F : Int), 0, now⟩ (List.replicate F (now + 1, 1))
      = (true :: List.replicate (F - 1) true, ⟨(C : Int), (F : Int), 0, now + 1⟩) := by
    rw [hrep, runCalls_cons, h3]
    dsimp only
    rw [h4]
  have e5 : runCalls ⟨(C : Int), (F : Int), 0, now + 1⟩ [(now + 1, 1)]
      = ([false], ⟨(C : Int), (F : Int), 0, now + 1⟩) := by
    rw [runCalls_cons, h5]
    simp [runCalls]
  rw [TokenBucketRateLimiter.init, runCalls_append, runCalls_append, runCalls_append, h1]
  dsimp only
  rw [e2]
  dsimp only
  rw [e3]
  dsimp only
  rw [e5]
  dsimp only
  rw [hrepT]

/-- C6, witness: capacity 3, fill rate 2, starting clock 0. -/
theorem c6_bucket_refill_witness :
    (1 ≤ 2 ∧ 2 ≤ 3)
    ∧ runCalls (TokenBucketRateLimiter.init ((3 : Nat) : Int) ((2 : Nat) : Int) 0)
        (List.replicate 3 ((0 : Int), (1 : Int)) ++ [((0 : Int), 1)]
          ++ List.replicate 2 ((0 : Int) + 1, (1 : Int)) ++ [((0 : Int) + 1, 1)]) =
      (List.replicate 3 true ++ [false] ++ List.replicate 2 true ++ [false],
        ⟨((3 : Nat) : Int), ((2 : Nat) : Int), 0, (0 : Int) + 1⟩) :=
  ⟨⟨by decide, by decide⟩, c6_bucket_refill 3 2 0 (by decide) (by decide)⟩

/-! ## Claim C7: bucket state invariant -/

/-- C7, counterexample.  `is_allowed` (utils.py line 43) uses the raw
elapsed time `current_time - last_time` with no zero clamp, so a clock
reading that goes backward drains the bucket below zero: a full default
bucket (capacity 128, fill rate 2, last refill at 100) observing a clock
reading of 0 ends with `tokens = -72 < 0`, breaking `0 <= tokens`. -/
theorem c7_negative_tokens :
    ((⟨128, 2, 128, 100⟩ : TokenBucketRateLimiter).is_allowed 0 1).2.tokens = -72
    ∧ ¬ (0 ≤ ((⟨128, 2, 128, 100⟩ : TokenBucketRateLimiter).is_allowed 0 1).2.tokens) := by
  decide

/-- C7, amended: the invariant `0 ≤ tokens ≤ capacity` holds after every
call for every sequence of calls whose clock readings never go backward
(each reading at least the bucket's `last_time`, costs non-negative) — the
quantification over all such sequences covers the state after every
intermediate call, as each prefix is such a sequence.  The original
claim's allowance for backward clock readings is dropped: the code does
not clamp elapsed time (see the counterexample). -/
theorem c7_invariant_monotone (b : TokenBucketRateLimiter) (calls : List (Int × Int))
    (hcap : 0 ≤ b.capacity) (hfill : 0 ≤ b.fill_rate)
    (h0 : 0 ≤ b.tokens) (h1 : b.tokens ≤ b.capacity)
    (hm : monoFromB b.last_time calls = true) :
    0 ≤ (runCalls b calls).2.tokens
    ∧ (runCalls b calls).2.tokens ≤ (runCalls b calls).2.capacity := by
  induction calls generalizing b with
  | nil => exact ⟨h0, h1⟩
  | cons hd tl ih =>
      obtain ⟨t, c⟩ := hd
      simp only [monoFromB, Bool.and_eq_true, decide_eq_true_eq] at hm
      obtain ⟨⟨htl, hc⟩, hrest⟩ := hm
      obtain ⟨⟨hn0, hn1⟩, hncap, hnfill, hntime⟩ :=
        is_allowed_invariant b t c hcap hfill h0 htl hc
      rw [runCalls_cons]
      dsimp only
      refine ih (b.is_allowed t c).2 ?_ ?_ hn0 ?_ ?_
      · rw [hncap]; exact hcap
      · rw [hnfill]; exact hfill
      · rw [hncap]; exact hn1
      · rw [hntime]; exact hrest

/-- C7, witness: a default-configured bucket through a monotone three-call
sequence. -/
theorem c7_invariant_monotone_witness :
    ((0 : Int) ≤ 128 ∧ (0 : Int) ≤ 2 ∧ (0 : Int) ≤ 128 ∧ (128 : Int) ≤ 128
      ∧ monoFromB 0 [(0, 1), (1, 1), (5, 2)] = true)
    ∧ (0 ≤ (runCalls ⟨128, 2, 128, 0⟩ [(0, 1), (1, 1), (5, 2)]).2.tokens
      ∧ (runCalls ⟨128, 2, 128, 0⟩ [(0, 1), (1, 1), (5, 2)]).2.tokens
          ≤ (runCalls ⟨128, 2, 128, 0⟩ [(0, 1), (1, 1), (5, 2)]).2.capacity) :=
  ⟨⟨by decide, by decide, by decide, by decide, by decide⟩,
    c7_invariant_monotone ⟨128, 2, 128, 0⟩ [(0, 1), (1, 1), (5, 2)]
      (by decide) (by decide) (by decide) (by decide) (by decide)⟩

/-! ## Claim C1: rate limiting of cache-miss probes -/

/-- C1, counterexample.  `check_website` never consults any
`TokenBucketRateLimiter`: the class is defined in utils.py but not even
imported by __main__.py.  Concretely, with a bucket state that denies a
unit-cost request at time 0, a cache-miss request still issues a probe
(third component `true`) and answers 200, not 429. -/
theorem c1_limiter_not_consulted :
    ((⟨128, 2, 0, 0⟩ : TokenBucketRateLimiter).is_allowed 0 1).1 = false
    ∧ (handle_check "p" "a.b" 0 [] (.reached 200)).2.2 = true
    ∧ (handle_check "p" "a.b" 0 [] (.reached 200)).1 ≠ .error 429 := by
  decide

/-- C1, amended: the orchestrator never consults the rate limiter.  On
every validated, well-formed cache miss a probe is issued regardless of any
bucket state, and no request whatsoever is answered with 429. -/
theorem c1_no_rate_limit_path (pfx s pfx2 s2 : String) (now n : Int)
    (cache c : Cache) (oc oc2 : ProbeOutcome)
    (hv : validate_website s = true)
    (hmal : malformed_input s (urlparse s) = false)
    (hmiss : cacheGet cache (redis_key_of pfx (origin_of (urlparse s))) now = none) :
    (handle_check pfx s now cache oc).2.2 = true
    ∧ (handle_check pfx2 s2 n c oc2).1 ≠ .error 429 := by
  constructor
  · simp only [handle_check, hv, if_true, check_website, hmal, Bool.false_eq_true,
      if_false, hmiss]
    cases oc <;> simp [probe_store]
  · simp only [handle_check, check_website, probe_store]
    repeat' split
    all_goals simp

/-- C1, witness: an empty cache with a fresh, validated input. -/
theorem c1_no_rate_limit_path_witness :
    (validate_website "a.b" = true
      ∧ malformed_input "a.b" (urlparse "a.b") = false
      ∧ cacheGet [] (redis_key_of "p" (origin_of (urlparse "a.b"))) 0 = none)
    ∧ (handle_check "p" "a.b" 0 [] (.reached 200)).2.2 = true
    ∧ (handle_check "q" "x.y" 7 [] .netError).1 ≠ .error 429 :=
  ⟨⟨by decide, by decide, by decide⟩,
    c1_no_rate_limit_path "p" "a.b" "q" "x.y" 0 7 [] [] (.reached 200) .netError
      (by decide) (by decide) (by decide)⟩

/-! ## Claim C2: response body fields -/

/-- C2, counterexample.  The claim says every successful body carries three
fields, among them a boolean `cached` flag.  `_result_with_status` builds
the dict with exactly the two keys `status` and `last_checked`; a concrete
successful response has no `cached` key at all. -/
theorem c2_no_cached_field :
    (handle_check "p" "a.b" 5 [] (.reached 200)).1
      = .ok [("status", 200), ("last_checked", 5)]
    ∧ List.lookup "cached" [("status", (200 : Int)), ("last_checked", 5)] = none
    ∧ (List.map Prod.fst [("status", (200 : Int)), ("last_checked", 5)]).length = 2 := by
  decide

/-- C2, amended: every successful `/check` response body consists of
exactly the two fields `status` and `last_checked`, in that order; no
`cached` flag exists. -/
theorem c2_body_fields (pfx s : String) (now : Int) (cache : Cache) (oc : ProbeOutcome)
    (body : List (String × Int)) (c2 : Cache) (p : Bool)
    (h : handle_check pfx s now cache oc = (.ok body, c2, p)) :
    body.map Prod.fst = ["status", "last_checked"] := by
  simp only [handle_check, check_website, probe_store] at h
  repeat' split at h
  all_goals simp only [Prod.mk.injEq] at h
  all_goals obtain ⟨h1, h2⟩ := h
  all_goals first
    | exact Response.noConfusion h1
    | (injection h1 with hL; subst hL; simp [result_with_status])

/-- C2, witness: a fresh probe answering 200. -/
theorem c2_body_fields_witness :
    handle_check "p" "a.b" 0 [] (.reached 200)
      = (.ok [("status", 200), ("last_checked", 0)], [("p-https://a.b", 200, 300)], true)
    ∧ List.map Prod.fst [("status", (200 : Int)), ("last_checked", 0)]
      = ["status", "last_checked"] :=
  ⟨by decide,
    c2_body_fields "p" "a.b" 0 [] (.reached 200) [("status", 200), ("last_checked", 0)]
      [("p-https://a.b", 200, 300)] true (by decide)⟩

/-! ## Claim C3: repeated calls within the TTL window -/

/-- C3, counterexample.  The claim requires the repeated call to answer
with `cached=true`.  A second call 10 seconds after a first resolution does
serve the first result, but its body has no `cached` field at all (so in
particular no `cached=true`). -/
theorem c3_cached_flag_missing :
    (handle_check "p" "a.b" 10 (handle_check "p" "a.b" 0 [] (.reached 200)).2.1
        (.reached 503)).1
      = .ok [("status", 200), ("last_checked", 0)]
    ∧ List.lookup "cached" [("status", (200 : Int)), ("last_checked", 0)] = none := by
  decide

/-- C3, amended: after a first resolution at `t0` (any probe outcome that
produced a result), every repeated call at `t1` inside the 300-second TTL
window returns the identical `status` and the same `last_checked` value
(the time of the original observation), issues no new outbound probe and
leaves the cache unchanged — but the body carries no `cached` flag. -/
theorem c3_repeat_within_ttl (pfx s : String) (t0 t1 : Int) (cache : Cache)
    (oc oc2 : ProbeOutcome)
    (hv : validate_website s = true)
    (hmal : malformed_input s (urlparse s) = false)
    (hmiss : cacheGet cache (redis_key_of pfx (origin_of (urlparse s))) t0 = none)
    (hoc : oc ≠ .otherFault)
    (h01 : t0 ≤ t1) (h1 : t1 < t0 + 300) :
    (handle_check pfx s t0 cache oc).1
      = .ok [("status", status_of oc), ("last_checked", t0)]
    ∧ (handle_check pfx s t1 (handle_check pfx s t0 cache oc).2.1 oc2).1
      = .ok [("status", status_of oc), ("last_checked", t0)]
    ∧ (handle_check pfx s t1 (handle_check pfx s t0 cache oc).2.1 oc2).2.2 = false
    ∧ (handle_check pfx s t1 (handle_check pfx s t0 cache oc).2.1 oc2).2.1
      = (handle_check pfx s t0 cache oc).2.1 := by
  have hfirst : handle_check pfx s t0 cache oc
      = (.ok [("status", status_of oc), ("last_checked", t0)],
          cacheSet cache (redis_key_of pfx (origin_of (urlparse s))) (status_of oc)
            CACHE_TTL t0, true) := by
    simp only [handle_check, hv, if_true, check_website, hmal, Bool.false_eq_true,
      if_false, hmiss]
    cases oc with
    | reached code => simp [probe_store, result_with_status, status_of]
    | netError => simp [probe_store, result_with_status, status_of]
    | otherFault => exact absurd rfl hoc
  have hget : cacheGet
      (cacheSet cache (redis_key_of pfx (origin_of (urlparse s))) (status_of oc) CACHE_TTL t0)
      (redis_key_of pfx (origin_of (urlparse s))) t1 = some (status_of oc) := by
    simp only [cacheGet, cacheSet, List.lookup_cons, beq_self_eq_true, CACHE_TTL]
    rw [if_pos (by omega)]
  have httl : cacheTtl
      (cacheSet cache (redis_key_of pfx (origin_of (urlparse s))) (status_of oc) CACHE_TTL t0)
      (redis_key_of pfx (origin_of (urlparse s))) t1 = t0 + 300 - t1 := by
    simp only [cacheTtl, cacheSet, List.lookup_cons, beq_self_eq_true, CACHE_TTL]
    rw [if_pos (by omega)]
  have hres : result_with_status t1 (status_of oc) (t0 + 300 - t1)
      = [("status", status_of oc), ("last_checked", t0)] := by
    simp only [result_with_status, CACHE_TTL]
    rw [if_pos (by omega : t0 + 300 - t1 ≠ 0)]
    have harith : t1 - (300 - (t0 + 300 - t1)) = t0 := by ring
    rw [harith]
  have hsecond : handle_check pfx s t1
      (cacheSet cache (redis_key_of pfx (origin_of (urlparse s))) (status_of oc) CACHE_TTL t0)
      oc2
      = (.ok [("status", status_of oc), ("last_checked", t0)],
          cacheSet cache (redis_key_of pfx (origin_of (urlparse s))) (status_of oc)
            CACHE_TTL t0, false) := by
    simp only [handle_check, hv, if_true, check_website, hmal, Bool.false_eq_true,
      if_false, hget, httl]
    rw [if_pos (by omega)]
    rw [hres]
  rw [hfirst]
  dsimp only
  rw [hsecond]
  exact ⟨rfl, rfl, rfl, rfl⟩

/-- C3, witness: first resolution at time 0 (status 200), repeat at
time 10. -/
theorem c3_repeat_within_ttl_witness :
    (validate_website "a.b" = true
      ∧ malformed_input "a.b" (urlparse "a.b") = false
      ∧ cacheGet [] (redis_key_of "p" (origin_of (urlparse "a.b"))) 0 = none
      ∧ (0 : Int) ≤ 10 ∧ (10 : Int) < 0 + 300)
    ∧ (handle_check "p" "a.b" 0 [] (.reached 200)).1
      = .ok [("status", status_of (.reached 200)), ("last_checked", 0)]
    ∧ (handle_check "p" "a.b" 10 (handle_check "p" "a.b" 0 [] (.reached 200)).2.1
        (.reached 503)).1
      = .ok [("status", status_of (.reached 200)), ("last_checked", 0)]
    ∧ (handle_check "p" "a.b" 10 (handle_check "p" "a.b" 0 [] (.reached 200)).2.1
        (.reached 503)).2.2 = false
    ∧ (handle_check "p" "a.b" 10 (handle_check "p" "a.b" 0 [] (.reached 200)).2.1
        (.reached 503)).2.1
      = (handle_check "p" "a.b" 0 [] (.reached 200)).2.1 :=
  ⟨⟨by decide, by decide, by decide, by decide, by decide⟩,
    c3_repeat_within_ttl "p" "a.b" 0 10 [] (.reached 200) (.reached 503)
      (by decide) (by decide) (by decide) (by decide) (by decide) (by decide)⟩

/-! ## Claim C4: rejection of invalid inputs -/

/-- C4, counterexample.  The endpoint's declared pattern is unanchored
(pydantic v2 `pattern` searches anywhere in the string), so the input
`a.b!!` — which violates the claimed charset `[A-Za-z0-9.-]` — passes
validation, is probed (no 400 client error), and the cache is written. -/
theorem c4_charset_violation_probed :
    spec_input_violation "a.b!!" = true
    ∧ validate_website "a.b!!" = true
    ∧ (handle_check "p" "a.b!!" 0 [] (.reached 403)).2.2 = true
    ∧ (handle_check "p" "a.b!!" 0 [] (.reached 403)).1 ≠ .error 400
    ∧ (handle_check "p" "a.b!!" 0 [] (.reached 403)).2.1 ≠ [] := by
  decide

/-- C4, amended: every input that fails the validation the code actually
declares — longer than 100 characters, or containing no character from
`[A-Za-z0-9.-]` anywhere — is rejected with a client error (422) before the
endpoint body runs: no probe is issued and the cache is untouched. -/
theorem c4_invalid_rejected (pfx s : String) (now : Int) (cache : Cache) (oc : ProbeOutcome)
    (hv : validate_website s = false) :
    handle_check pfx s now cache oc = (.error 422, cache, false) := by
  simp [handle_check, hv]

/-- C4, witness: a charset-only violation with no admissible character. -/
theorem c4_invalid_rejected_witness :
    validate_website "!!" = false
    ∧ handle_check "p" "!!" 0 [] (.reached 200) = (.error 422, [], false) :=
  ⟨by decide, c4_invalid_rejected "p" "!!" 0 [] (.reached 200) (by decide)⟩

/-! ## Claim C8: unreachable hosts are a cached, successful result -/

/-- C8: a network-level probe failure (`httpx.RequestError`: connection
refused, timeout, DNS, TLS, protocol error) yields the sentinel status -1
in a normal 200 body, and the result is written to the cache with exactly
the same fixed TTL as a reached result (expiry `now + 300`); no server
error is raised. -/
theorem c8_unreachable_cached (pfx s : String) (now : Int) (cache : Cache)
    (hv : validate_website s = true)
    (hmal : malformed_input s (urlparse s) = false)
    (hmiss : cacheGet cache (redis_key_of pfx (origin_of (urlparse s))) now = none) :
    handle_check pfx s now cache .netError
      = (.ok [("status", -1), ("last_checked", now)],
          (redis_key_of pfx (origin_of (urlparse s)), (-1, now + 300)) :: cache, true)
    ∧ ∀ code, (handle_check pfx s now cache (.reached code)).2.1
      = (redis_key_of pfx (origin_of (urlparse s)), (code, now + 300)) :: cache := by
  constructor
  · simp only [handle_check, hv, if_true, check_website, hmal, Bool.false_eq_true,
      if_false, hmiss, probe_store]
    simp [result_with_status, cacheSet, UNREACHABLE_STATUS, CACHE_TTL]
  · intro code
    simp only [handle_check, hv, if_true, check_website, hmal, Bool.false_eq_true,
      if_false, hmiss, probe_store]
    simp [cacheSet, CACHE_TTL]

/-- C8, witness: a refused connection to a fresh origin at time 50. -/
theorem c8_unreachable_cached_witness :
    (validate_website "a.b" = true
      ∧ malformed_input "a.b" (urlparse "a.b") = false
      ∧ cacheGet [] (redis_key_of "p" (origin_of (urlparse "a.b"))) 50 = none)
    ∧ (handle_check "p" "a.b" 50 [] .netError
        = (.ok [("status", -1), ("last_checked", 50)],
            (redis_key_of "p" (origin_of (urlparse "a.b")), (-1, 50 + 300)) :: [], true)
      ∧ ∀ code, (handle_check "p" "a.b" 50 [] (.reached code)).2.1
        = (redis_key_of "p" (origin_of (urlparse "a.b")), (code, 50 + 300)) :: []) :=
  ⟨⟨by decide, by decide, by decide⟩,
    c8_unreachable_cached "p" "a.b" 50 [] (by decide) (by decide) (by decide)⟩

/-! ## Claim C9: User-Agent rotation -/

/-- C9, counterexample.  The `User-Agent` header on line 93 is one string
literal inside the `client.stream` call: it cannot differ between probes,
so no two probes ever carry different headers — there is no pool and no
rotation.  This proves the negation of the rotation property. -/
theorem c9_constant_user_agent : ¬ spec_rotation_claim := by
  intro h
  obtain ⟨n, m, hne⟩ := h
  exact hne rfl

/-- C9, amended: every probe sends the same fixed browser-like
`User-Agent` header (Chrome 105 on Windows 10), with cookie handling
disabled elsewhere (`NullCookieJar`); there is no per-request rotation. -/
theorem c9_fixed_user_agent (n m : Nat) :
    probe_headers n = [("User-Agent", USER_AGENT)] ∧ probe_headers n = probe_headers m :=
  ⟨rfl, rfl⟩

/-! ## Claim C10: per-process cache key isolation -/

/-- C10: every cache key is the normalized origin prefixed by
`is-it-up-<uuid>-` with the UUID drawn once at process startup.  Two
processes whose UUID strings differ (f-string renderings of `uuid4()` all
have the same length, 36) can never collide on a key, whatever origins
they store, so neither ever reads an entry written by the other: each
process observes an initially empty keyspace of its own. -/
theorem c10_key_isolation (u1 u2 o1 o2 : String)
    (hlen : u1.length = u2.length) (hne : u1 ≠ u2) :
    redis_key_of (redis_pfx u1) o1 ≠ redis_key_of (redis_pfx u2) o2 := by
  intro h
  apply hne
  have hd := congrArg String.data h
  simp only [redis_key_of, redis_pfx, String.data_append, List.append_assoc] at hd
  have hd2 := List.append_cancel_left hd
  have hlen2 : u1.data.length = u2.data.length := hlen
  exact String.ext (List.append_inj hd2 hlen2).1

/-- C10, witness: two distinct equal-length UUID strings and two origins,
one of which even contains a hyphen. -/
theorem c10_key_isolation_witness :
    (("aaaa" : String).length = ("bbbb" : String).length ∧ ("aaaa" : String) ≠ "bbbb")
    ∧ redis_key_of (redis_pfx "aaaa") "https://x.y"
      ≠ redis_key_of (redis_pfx "bbbb") "https://x-z.y" :=
  ⟨⟨by decide, by decide⟩,
    c10_key_isolation "aaaa" "bbbb" "https://x.y" "https://x-z.y" (by decide) (by decide)⟩

/-! ## Claim C5: origins discard path, query and fragment -/

/-- Characters of the first component of `splitFirst` come from the input. -/
theorem mem_splitFirst_fst {c x : Char} : ∀ {l : List Char}, x ∈ (splitFirst c l).1 → x ∈ l := by
  intro l
  induction l with
  | nil => intro h; simp [splitFirst] at h
  | cons y ys ih =>
      intro h
      simp only [splitFirst] at h
      split at h
      · simp at h
      · rcases List.mem_cons.mp h with h1 | h2
        · exact h1 ▸ List.mem_cons_self y ys
        · exact List.mem_cons_of_mem y (ih h2)

/-- The delimiter never occurs in the first component of `splitFirst`. -/
theorem not_mem_splitFirst_fst (c : Char) (l : List Char) : c ∉ (splitFirst c l).1 := by
  induction l with
  | nil => simp [splitFirst]
  | cons y ys ih =>
      simp only [splitFirst]
      split
      · simp
      · rename_i hne
        intro h
        rcases List.mem_cons.mp h with h1 | h2
        · exact hne h1.symm
        · exact ih h2

/-- The last segment of a path consists of characters of the path. -/
theorem lastSegment_subset (l : List Char) : lastSegment l ⊆ l := by
  unfold lastSegment
  split
  · intro x hx
    rw [List.mem_reverse] at hx
    have := List.takeWhile_subset (fun c => c ≠ '/') hx
    rwa [List.mem_reverse] at this
  · exact fun x hx => hx

/-- Characters of the path part of `splitParams` come from the input. -/
theorem mem_splitParams_fst {x : Char} {l : List Char} (h : x ∈ (splitParams l).1) : x ∈ l := by
  simp only [splitParams] at h
  split at h
  · exact h
  · rename_i a b heq
    rcases List.mem_append.mp h with h1 | h2
    · exact List.take_subset _ _ h1
    · have ha : a = (splitFirst ';' (lastSegment l)).1 := by rw [heq]
      exact lastSegment_subset l (mem_splitFirst_fst (ha ▸ h2))

/-- Every character of a parsed netloc avoids the three delimiters that end
a netloc. -/
theorem mem_parseNetloc_fst {x : Char} {l : List Char} (h : x ∈ (parseNetloc l).1) :
    netlocEnd x = false := by
  unfold parseNetloc at h
  split at h
  · have := List.mem_takeWhile_imp h
    simpa using this
  · simp at h

/-- Every character of a parsed scheme is the lowercasing of a scheme
character. -/
theorem mem_parseScheme_fst {x : Char} {l : List Char} (h : x ∈ (parseScheme l).1) :
    ∃ c, scheme_chars c = true ∧ x = Char.toLower c := by
  simp only [parseScheme] at h
  split at h
  · rename_i before after heq
    split at h
    · simp at h
    · rename_i b bs
      split at h
      · rename_i hcond
        obtain ⟨c, hcm, hcx⟩ := List.mem_map.mp h
        rw [Bool.and_eq_true] at hcond
        exact ⟨c, List.all_eq_true.mp hcond.2 c hcm, hcx.symm⟩
      · simp at h
  · simp at h

/-- Packing a valid codepoint and reading it back is the identity. -/
theorem char_toNat_ofNat (n : Nat) (h : n.isValidChar) : (Char.ofNat n).toNat = n := by
  rw [Char.ofNat, dif_pos h]
  rfl

/-- Lowercasing a scheme character never produces a query or fragment
delimiter. -/
theorem toLower_scheme_ne (c : Char) (h : scheme_chars c = true) :
    Char.toLower c ≠ '?' ∧ Char.toLower c ≠ '#' := by
  simp only [Char.toLower]
  split
  · rename_i hc
    have hv : (Char.toNat c + 32).isValidChar := Or.inl (by omega)
    constructor <;> intro heq <;>
      · have hn := congrArg Char.toNat heq
        rw [char_toNat_ofNat _ hv] at hn
        simp only [show Char.toNat '?' = 63 from rfl, show Char.toNat '#' = 35 from rfl] at hn
        omega
  · constructor <;> intro heq <;> rw [heq] at h <;> exact absurd h (by decide)

/-- C5, counterexample.  The claim says a normalized origin never carries
a path.  When the input has no network location, line 87 builds the host
part from the full path component, slashes included: the accepted input
`example.com/foo` (it passes validation and the malformed-input guard)
normalizes to `https://example.com/foo`, whose own parse still carries the
path `/foo` — the path was preserved, not discarded. -/
theorem c5_path_preserved :
    validate_website "example.com/foo" = true
    ∧ malformed_input "example.com/foo" (urlparse "example.com/foo") = false
    ∧ origin_of (urlparse "example.com/foo") = "https://example.com/foo"
    ∧ (urlparse (origin_of (urlparse "example.com/foo"))).path = "/foo" := by
  decide

/-- C5, amended: a normalized origin never carries a query or a fragment —
the characters `?` and `#` cannot occur anywhere in it — and an input that
parses with a network location has its path discarded, as in the claim's
own scenario `http://example.com/some/path?x=1` ↦ `http://example.com`;
but a path is preserved when the host part falls back to the path
component (see the counterexample). -/
theorem c5_no_query_fragment (s : String) :
    ('?' ∉ (origin_of (urlparse s)).data ∧ '#' ∉ (origin_of (urlparse s)).data)
    ∧ origin_of (urlparse "http://example.com/some/path?x=1") = "http://example.com" := by
  refine ⟨⟨?_, ?_⟩, by decide⟩ <;>
    · intro hmem
      simp only [origin_of, String.data_append, List.mem_append] at hmem
      rcases hmem with (h1 | h2) | h3
      · split at h1
        · exact absurd h1 (by decide)
        · obtain ⟨c, hc, hx⟩ := mem_parseScheme_fst h1
          rcases toLower_scheme_ne c hc with ⟨hq, hh⟩
          first
            | exact hq hx.symm
            | exact hh hx.symm
      · exact absurd h2 (by decide)
      · split at h3
        · first
            | exact not_mem_splitFirst_fst _ _ (mem_splitParams_fst h3)
            | exact not_mem_splitFirst_fst _ _
                (mem_splitFirst_fst (mem_splitParams_fst h3))
        · have := mem_parseNetloc_fst h3
          simp [netlocEnd] at this

end IsItUp
